import Mathlib

/-!
Shallow embedding of the telemetry acquisition layer of the sv2-ui
repository: the HTTP fetch helpers, backend mode detection
(`detectMode`), the aggregating client-channel fetcher
(`fetchAllClientChannels`), the two health-probe query functions, the
connection-state derivation (`getConnectionState`), and the hashrate
history store (reducer, initial-state loader, and the `addPoint`
recording path from `HashrateHistoryProvider`).

Network interaction is modelled by passing the outcome of each HTTP GET
explicitly: an environment maps a request URL to a `FetchResult`, which
is either a response carrying an HTTP status code and a parsed body, or
a network-level failure (connection error or `AbortSignal` timeout).
Functions that issue requests also return the list of URLs they
requested, so that claims about which requests are (not) issued can be
stated.
-/

namespace Sv2UI

/-- Outcome of one attempted HTTP GET: either a response with a status
code and a parsed JSON body, or a network-level failure (connection
error or exceeding the `AbortSignal.timeout` bound).  A thrown `fetch`
and a timeout are identified, as both surface as a rejected promise. -/
inductive FetchResult (α : Type) where
  | response (status : Nat) (body : α)
  | networkError
deriving DecidableEq, Repr

/-- Errors thrown by `fetchWithTimeout`: a rejected `fetch` call
(network error or timeout), or a completed response whose status was
not ok (`HTTP ${response.status}` error). -/
inductive HttpError where
  | network
  | httpStatus (status : Nat)
deriving DecidableEq, Repr

/-- `Response.ok` of the Fetch API: true exactly when the status code
is in the range 200–299. -/
def statusOk (status : Nat) : Bool :=
  decide (200 ≤ status ∧ status < 300)

/-- Whether a `FetchResult` is a response with an ok (2xx) status. -/
def FetchResult.isOk2xx {α : Type} : FetchResult α → Bool
  | .response s _ => statusOk s
  | .networkError => false

/-- `fetchWithTimeout` from `Settings.tsx`: awaits the fetch (a rejected
promise propagates as `HttpError.network`), throws `HTTP ${status}` when
`response.ok` is false, and returns the parsed JSON body otherwise. -/
def fetchWithTimeout {α : Type} (r : FetchResult α) : Except HttpError α :=
  match r with
  | .networkError => .error .network
  | .response s b => if statusOk s then .ok b else .error (.httpStatus s)

/-- One backend endpoint: base URL and display label. -/
structure Endpoint where
  base : String
  label : String
deriving DecidableEq, Repr

/-- The two candidate backends resolved by `getEndpoints`. -/
structure Endpoints where
  jdc : Endpoint
  translator : Endpoint
deriving DecidableEq, Repr

/-- The detected stack mode: `jdc` when the JD Client backend is
authoritative, `translator` otherwise. -/
inductive Mode where
  | jdc
  | translator
deriving DecidableEq, Repr

/-- The URL probed by `detectMode` and `useJdcHealth`:
`${endpoints.jdc.base}/health`. -/
def jdcHealthUrl (endpoints : Endpoints) : String :=
  endpoints.jdc.base ++ "/health"

/-- The URL probed by `useTranslatorHealth`:
`${endpoints.translator.base}/health`. -/
def translatorHealthUrl (endpoints : Endpoints) : String :=
  endpoints.translator.base ++ "/health"

/-- `detectMode` from `Settings.tsx`: GET the JDC health endpoint with a
2000 ms timeout; if the fetch resolves and `response.ok` holds, return
`jdc`; on a non-ok status, or when the fetch throws or times out (the
`catch` arm), return `translator`.  `env` maps each URL to the outcome
of a GET on it. -/
def detectMode {β : Type} (endpoints : Endpoints)
    (env : String → FetchResult β) : Mode :=
  match env (jdcHealthUrl endpoints) with
  | .response s _ => if statusOk s then .jdc else .translator
  | .networkError => .translator

/-- The list of URLs `detectMode` requests: exactly one GET, on the JDC
health endpoint.  The translator backend is never contacted. -/
def detectModeRequests (endpoints : Endpoints) : List String :=
  [jdcHealthUrl endpoints]

end Sv2UI

namespace Sv2UI

/-- One entry of the `/clients` list resource; `fetchAllClientChannels`
reads only its `client_id`. -/
structure ClientSummary where
  client_id : Nat
deriving DecidableEq, Repr

/-- Body of `GET {base}/clients?offset=0&limit=100`. -/
structure ClientsResponse where
  items : List ClientSummary
deriving DecidableEq, Repr

/-- An extended channel record returned by the per-client channels
endpoint.  Aggregation moves these records around without inspecting
their fields, so only the channel id is carried. -/
structure ExtendedChannelInfo where
  channel_id : Nat
deriving DecidableEq, Repr

/-- A standard channel record returned by the per-client channels
endpoint; as with `ExtendedChannelInfo`, only the id is carried. -/
structure StandardChannelInfo where
  channel_id : Nat
deriving DecidableEq, Repr

/-- Body of `GET {base}/clients/{id}/channels?offset=0&limit=100`. -/
structure ClientChannelsResponse where
  total_extended : Nat
  total_standard : Nat
  extended_channels : List ExtendedChannelInfo
  standard_channels : List StandardChannelInfo
deriving DecidableEq, Repr

/-- `AggregatedClientChannels` from `Settings.tsx`: the merge of the
per-client channel responses. -/
structure AggregatedClientChannels where
  total_extended : Nat
  total_standard : Nat
  extended_channels : List ExtendedChannelInfo
  standard_channels : List StandardChannelInfo
deriving DecidableEq, Repr

/-- The zero-valued aggregate literal that appears twice in
`fetchAllClientChannels` (the empty-list early return and the
accumulator's initial value). -/
def emptyAggregate : AggregatedClientChannels :=
  { total_extended := 0
    total_standard := 0
    extended_channels := []
    standard_channels := [] }

/-- URL of the initial list fetch of `fetchAllClientChannels`. -/
def clientsListUrl (baseUrl : String) : String :=
  baseUrl ++ "/clients?offset=0&limit=100"

/-- URL of the per-client detail fetch of `fetchAllClientChannels`. -/
def clientChannelsUrl (baseUrl : String) (clientId : Nat) : String :=
  baseUrl ++ "/clients/" ++ toString clientId ++ "/channels?offset=0&limit=100"

/-- The `.catch(() => null)` wrapper around each detail fetch: a
successful fetch yields `some` body, any failure (network error,
timeout, non-2xx status) is swallowed to `none`. -/
def detailOrNull (r : FetchResult ClientChannelsResponse) :
    Option ClientChannelsResponse :=
  match fetchWithTimeout r with
  | .ok v => some v
  | .error _ => none

/-- The accumulation step of the `for (const result of channelResults)`
loop: a `null` result is skipped, a non-null one has its totals added
and its channel lists appended. -/
def mergeStep (acc : AggregatedClientChannels)
    (r : Option ClientChannelsResponse) : AggregatedClientChannels :=
  match r with
  | none => acc
  | some v =>
    { total_extended := acc.total_extended + v.total_extended
      total_standard := acc.total_standard + v.total_standard
      extended_channels := acc.extended_channels ++ v.extended_channels
      standard_channels := acc.standard_channels ++ v.standard_channels }

/-- `fetchAllClientChannels` from `Settings.tsx`.  First GETs the client
list (a failure there propagates as the rejection of the whole
operation); on an empty item list returns the zero aggregate at once;
otherwise issues one detail GET per item, swallows individual failures
to `null`, and merges the non-null results.  The second component is
the list of detail URLs requested. -/
def fetchAllClientChannels (baseUrl : String)
    (envList : String → FetchResult ClientsResponse)
    (envDetail : String → FetchResult ClientChannelsResponse) :
    Except HttpError AggregatedClientChannels × List String :=
  match fetchWithTimeout (envList (clientsListUrl baseUrl)) with
  | .error e => (.error e, [])
  | .ok clientsResponse =>
    if clientsResponse.items.length = 0 then
      (.ok emptyAggregate, [])
    else
      let channelResults := clientsResponse.items.map fun client =>
        detailOrNull (envDetail (clientChannelsUrl baseUrl client.client_id))
      (.ok (channelResults.foldl mergeStep emptyAggregate),
       clientsResponse.items.map fun client =>
         clientChannelsUrl baseUrl client.client_id)

/-- The query function of `useTranslatorHealth`: GET the translator
health endpoint with a 2000 ms timeout and return `response.ok`.  When
the fetch itself rejects (network error or timeout) the async function
rejects in turn — there is no catch — so the outcome is an error, not a
boolean. -/
def useTranslatorHealthQueryFn {β : Type} (endpoints : Endpoints)
    (env : String → FetchResult β) : Except HttpError Bool :=
  match env (translatorHealthUrl endpoints) with
  | .response s _ => .ok (statusOk s)
  | .networkError => .error .network

/-- The query function of `useJdcHealth`: identical to the translator
probe but aimed at the JDC health endpoint. -/
def useJdcHealthQueryFn {β : Type} (endpoints : Endpoints)
    (env : String → FetchResult β) : Except HttpError Bool :=
  match env (jdcHealthUrl endpoints) with
  | .response s _ => .ok (statusOk s)
  | .networkError => .error .network

/-- The four user-facing connection states of
`ConnectionStatus.tsx`. -/
inductive ConnectionState where
  | connected
  | connecting
  | disconnected
  | error
deriving DecidableEq, Repr

/-- `getConnectionState` from `ConnectionStatus.tsx`: loading wins over
error, error over success, success over the disconnected default. -/
def getConnectionState (isLoading isError isSuccess : Bool) :
    ConnectionState :=
  if isLoading then .connecting
  else if isError then .error
  else if isSuccess then .connected
  else .disconnected

end Sv2UI

namespace Sv2UI

/-- `HashrateDataPoint` from `HashrateHistoryContext`: a formatted
display time, the epoch-millisecond timestamp, and the sampled hashrate
value.  The hashrate is a JS number on which this store does no
arithmetic; it is carried as a rational. -/
structure HashrateDataPoint where
  time : String
  timestamp : Int
  hashrate : Rat
deriving DecidableEq, Repr

/-- `MAX_HISTORY_POINTS`: capacity of the history buffer. -/
def MAX_HISTORY_POINTS : Nat := 60

/-- `SAMPLE_INTERVAL_MS`: minimum spacing between accepted samples. -/
def SAMPLE_INTERVAL_MS : Int := 5000

/-- `MAX_AGE_MS`: persisted entries older than this are dropped on
load. -/
def MAX_AGE_MS : Int := 60 * 60 * 1000

/-- JavaScript `array.slice(-n)` for `n > 0`: the suffix of the last
`n` elements (the whole array when it is shorter than `n`). -/
def sliceLast {α : Type} (l : List α) (n : Nat) : List α :=
  l.drop (l.length - n)

/-- State held by the `useReducer` of `HashrateHistoryProvider`. -/
structure HashrateHistoryState where
  history : List HashrateDataPoint
deriving DecidableEq, Repr

/-- The three reducer actions of `HashrateHistoryContext`. -/
inductive HashrateHistoryAction where
  | ADD_POINT (payload : HashrateDataPoint)
  | LOAD (payload : List HashrateDataPoint)
  | CLEAR
deriving DecidableEq, Repr

/-- `hashrateHistoryReducer`: `ADD_POINT` appends the payload and, when
the length exceeds `MAX_HISTORY_POINTS`, keeps only the last
`MAX_HISTORY_POINTS` entries (`slice(-MAX_HISTORY_POINTS)`); `LOAD`
replaces the history; `CLEAR` empties it. -/
def hashrateHistoryReducer (state : HashrateHistoryState)
    (action : HashrateHistoryAction) : HashrateHistoryState :=
  match action with
  | .ADD_POINT payload =>
    let updated := state.history ++ [payload]
    { history :=
        if updated.length > MAX_HISTORY_POINTS then
          sliceLast updated MAX_HISTORY_POINTS
        else updated }
  | .LOAD payload => { history := payload }
  | .CLEAR => { history := [] }

/-- The `localStorage` slot under `STORAGE_KEY` as `loadInitialState`
finds it: absent (`getItem` returned null), corrupt (`JSON.parse`
throws, or `getItem`/`parse` fails in any way the `catch` absorbs), or
a parsed array of data points. -/
inductive StoredSnapshot where
  | absent
  | corrupt
  | valid (data : List HashrateDataPoint)
deriving DecidableEq, Repr

/-- `loadInitialState`: read the persisted snapshot; on success filter
out entries older than `MAX_AGE_MS` relative to `now` and keep the last
`MAX_HISTORY_POINTS` of the remainder; on a missing or corrupt snapshot
start empty. -/
def loadInitialState (now : Int) (storage : StoredSnapshot) :
    HashrateHistoryState :=
  match storage with
  | .valid data =>
    let recentData := data.filter fun point => now - point.timestamp < MAX_AGE_MS
    { history := sliceLast recentData MAX_HISTORY_POINTS }
  | .absent => { history := [] }
  | .corrupt => { history := [] }

/-- The mutable state of one mounted `HashrateHistoryProvider`: the
reducer state, the `lastSampleTime` ref (initialized to 0), and the
persisted snapshot that the persistence effect maintains. -/
structure ProviderState where
  history : List HashrateDataPoint
  lastSampleTime : Int
  storage : StoredSnapshot
deriving DecidableEq, Repr

/-- The provider state right after mount: history from
`loadInitialState`, `lastSampleTime` at 0, storage as found. -/
def initialProviderState (now : Int) (storage : StoredSnapshot) :
    ProviderState :=
  { history := (loadInitialState now storage).history
    lastSampleTime := 0
    storage := storage }

/-- One call to `addPoint` together with the persistence effect it
triggers.  If less than `SAMPLE_INTERVAL_MS` has elapsed since the last
accepted sample the call returns at once and nothing changes; otherwise
`lastSampleTime` is set to `now`, an `ADD_POINT` is dispatched with the
formatted time, timestamp and value, and the effect writes the new
history to storage (a failing write is swallowed, leaving the previous
snapshot).  `fmt` models `toLocaleTimeString` for the current locale;
`writeOk` models whether the `localStorage.setItem` succeeds. -/
def addPoint (fmt : Int → String) (now : Int) (hashrate : Rat)
    (writeOk : Bool) (st : ProviderState) : ProviderState :=
  if now - st.lastSampleTime < SAMPLE_INTERVAL_MS then st
  else
    let payload : HashrateDataPoint :=
      { time := fmt now, timestamp := now, hashrate := hashrate }
    let newHistory :=
      (hashrateHistoryReducer { history := st.history } (.ADD_POINT payload)).history
    { history := newHistory
      lastSampleTime := now
      storage := if writeOk then .valid newHistory else st.storage }

/-- Folding a sequence of accepted samples through the reducer,
starting from an empty buffer: the history each `ADD_POINT` dispatch
passes through `hashrateHistoryReducer`. -/
def recordAll (pts : List HashrateDataPoint) : HashrateHistoryState :=
  pts.foldl (fun s p => hashrateHistoryReducer s (.ADD_POINT p)) { history := [] }

/-- The per-client responses that survive the `.catch(() => null)`
wrapper, in item order: the inputs actually merged by the aggregation
loop. -/
def successfulDetails (baseUrl : String) (items : List ClientSummary)
    (envDetail : String → FetchResult ClientChannelsResponse) :
    List ClientChannelsResponse :=
  (items.map fun client =>
    detailOrNull (envDetail (clientChannelsUrl baseUrl client.client_id))).reduceOption

/-- Decidable equality for `Except`, used to evaluate fetch outcomes on
concrete inputs. -/
def exceptDecEq {ε α : Type} [DecidableEq ε] [DecidableEq α] :
    (a b : Except ε α) → Decidable (a = b)
  | .ok a, .ok b =>
    match decEq a b with
    | isTrue h => isTrue (by rw [h])
    | isFalse h => isFalse fun hh => h (Except.ok.inj hh)
  | .ok _, .error _ => isFalse fun h => Except.noConfusion h
  | .error _, .ok _ => isFalse fun h => Except.noConfusion h
  | .error e, .error f =>
    match decEq e f with
    | isTrue h => isTrue (by rw [h])
    | isFalse h => isFalse fun hh => h (Except.error.inj hh)

instance {ε α : Type} [DecidableEq ε] [DecidableEq α] :
    DecidableEq (Except ε α) :=
  exceptDecEq

/-! Concrete inputs used to instantiate the theorems below. -/

/-- A concrete endpoint configuration. -/
def demoEndpoints : Endpoints :=
  { jdc := { base := "J", label := "JD Client" }
    translator := { base := "T", label := "Translator" } }

/-- An environment in which every GET answers 200. -/
def demoEnvAllOk : String → FetchResult Unit := fun _ => .response 200 ()

/-- An environment in which only the JDC health endpoint answers; every
other URL fails at the network level. -/
def demoEnvOnlyJdc : String → FetchResult Unit := fun url =>
  if url = "J/health" then .response 200 () else .networkError

/-- An environment in which every GET fails at the network level. -/
def demoEnvNetErr : String → FetchResult Unit := fun _ => .networkError

/-- A list response with no clients. -/
def demoEmptyListEnv : String → FetchResult ClientsResponse :=
  fun _ => .response 200 { items := [] }

/-- A detail environment that always fails. -/
def demoDetailEnvDown : String → FetchResult ClientChannelsResponse :=
  fun _ => .networkError

/-- A list response with three clients, ids 1, 2 and 3. -/
def demoClients3 : ClientsResponse :=
  { items := [{ client_id := 1 }, { client_id := 2 }, { client_id := 3 }] }

/-- A list environment answering `demoClients3`. -/
def demoListEnv3 : String → FetchResult ClientsResponse :=
  fun _ => .response 200 demoClients3

/-- The detail body served for client `id` in the demo environment. -/
def demoDetail (id : Nat) : ClientChannelsResponse :=
  { total_extended := id
    total_standard := 1
    extended_channels := [{ channel_id := id }]
    standard_channels := [{ channel_id := 10 + id }] }

/-- A detail environment in which the fetch for client 2 fails and the
fetches for clients 1 and 3 succeed. -/
def demoDetailEnv3 : String → FetchResult ClientChannelsResponse := fun url =>
  if url = clientChannelsUrl "B" 2 then .networkError
  else if url = clientChannelsUrl "B" 1 then .response 200 (demoDetail 1)
  else .response 200 (demoDetail 3)

end Sv2UI

namespace Sv2UI

/-- C8: `getConnectionState` applies its flags in precedence order —
loading forces `connecting` whatever the other flags are; with loading
clear, error forces `error`; with both clear, success gives
`connected`; with all three clear the result is `disconnected`.  In
particular the all-true triple evaluates to `connecting` and the
all-false triple to `disconnected`. -/
theorem getConnectionState_precedence (e s : Bool) :
    getConnectionState true e s = ConnectionState.connecting
    ∧ getConnectionState false true s = ConnectionState.error
    ∧ getConnectionState false false true = ConnectionState.connected
    ∧ getConnectionState false false false = ConnectionState.disconnected :=
  ⟨rfl, rfl, rfl, rfl⟩

/-- C1: `detectMode` is determined by the outcome of the single GET on
the JDC health endpoint — a 2xx response selects `jdc`, a non-2xx
response or a network failure/timeout selects `translator` — and two
environments that agree on that one URL produce the same mode, so the
translator backend's own health is never consulted. -/
theorem detectMode_determined_by_primary_probe {β : Type}
    (endpoints : Endpoints) (env env' : String → FetchResult β)
    (hagree : env' (jdcHealthUrl endpoints) = env (jdcHealthUrl endpoints)) :
    detectMode endpoints env
      = (if (env (jdcHealthUrl endpoints)).isOk2xx then Mode.jdc
         else Mode.translator)
    ∧ detectMode endpoints env' = detectMode endpoints env := by
  constructor
  · unfold detectMode
    cases h : env (jdcHealthUrl endpoints) with
    | response s b => simp [FetchResult.isOk2xx]
    | networkError => simp [FetchResult.isOk2xx]
  · unfold detectMode
    rw [hagree]

/-- Witness for C1 at a concrete configuration: with the JDC probe
answering 200 the mode is determined by that probe alone, and replacing
every other URL's outcome by a network failure leaves the result
unchanged. -/
theorem detectMode_determined_by_primary_probe_witness :
    detectMode demoEndpoints demoEnvAllOk
      = (if (demoEnvAllOk (jdcHealthUrl demoEndpoints)).isOk2xx then Mode.jdc
         else Mode.translator)
    ∧ detectMode demoEndpoints demoEnvOnlyJdc
        = detectMode demoEndpoints demoEnvAllOk :=
  detectMode_determined_by_primary_probe demoEndpoints demoEnvAllOk
    demoEnvOnlyJdc (by decide)

/-- C7 counterexample: when the GET on a health endpoint fails at the
network level (connection error or 2000 ms timeout), the probe's query
function rejects with an error instead of returning `false`, for both
the translator and the JDC probe. -/
theorem health_probe_raises_on_network_error :
    useTranslatorHealthQueryFn demoEndpoints demoEnvNetErr
      = Except.error HttpError.network
    ∧ useTranslatorHealthQueryFn demoEndpoints demoEnvNetErr ≠ Except.ok false
    ∧ useJdcHealthQueryFn demoEndpoints demoEnvNetErr
        = Except.error HttpError.network
    ∧ useJdcHealthQueryFn demoEndpoints demoEnvNetErr ≠ Except.ok false := by
  refine ⟨rfl, ?_, rfl, ?_⟩ <;> decide

/-- C7 amended: each health probe returns `response.ok` as a boolean
when the fetch completes — it yields `true` exactly on a 2xx status
and `false` exactly on a completed non-2xx status, so a non-2xx status
yields `false` rather than an exception — but a network error or
timeout makes the query function reject with an error (which the query
layer records as the query's error state) rather than yield `false`.
The three outcomes are characterized exhaustively: `ok true` iff 2xx,
`ok false` iff a completed response with a non-ok status, and the
network-error rejection iff the fetch itself failed. -/
theorem health_probe_boolean_or_rejection {β : Type} (endpoints : Endpoints)
    (env : String → FetchResult β) :
    (useTranslatorHealthQueryFn endpoints env = Except.ok true
       ↔ (env (translatorHealthUrl endpoints)).isOk2xx = true)
    ∧ (useTranslatorHealthQueryFn endpoints env = Except.ok false
       ↔ ∃ s b, env (translatorHealthUrl endpoints) = FetchResult.response s b
           ∧ statusOk s = false)
    ∧ (useTranslatorHealthQueryFn endpoints env = Except.error HttpError.network
       ↔ env (translatorHealthUrl endpoints) = FetchResult.networkError)
    ∧ (useJdcHealthQueryFn endpoints env = Except.ok true
       ↔ (env (jdcHealthUrl endpoints)).isOk2xx = true)
    ∧ (useJdcHealthQueryFn endpoints env = Except.ok false
       ↔ ∃ s b, env (jdcHealthUrl endpoints) = FetchResult.response s b
           ∧ statusOk s = false)
    ∧ (useJdcHealthQueryFn endpoints env = Except.error HttpError.network
       ↔ env (jdcHealthUrl endpoints) = FetchResult.networkError) := by
  refine ⟨?_, ?_, ?_, ?_, ?_, ?_⟩
  · unfold useTranslatorHealthQueryFn
    cases h : env (translatorHealthUrl endpoints) with
    | response s b => simp [FetchResult.isOk2xx]
    | networkError => simp [FetchResult.isOk2xx]
  · unfold useTranslatorHealthQueryFn
    cases h : env (translatorHealthUrl endpoints) with
    | response s b => simp
    | networkError => simp
  · unfold useTranslatorHealthQueryFn
    cases h : env (translatorHealthUrl endpoints) with
    | response s b => simp
    | networkError => simp
  · unfold useJdcHealthQueryFn
    cases h : env (jdcHealthUrl endpoints) with
    | response s b => simp [FetchResult.isOk2xx]
    | networkError => simp [FetchResult.isOk2xx]
  · unfold useJdcHealthQueryFn
    cases h : env (jdcHealthUrl endpoints) with
    | response s b => simp
    | networkError => simp
  · unfold useJdcHealthQueryFn
    cases h : env (jdcHealthUrl endpoints) with
    | response s b => simp
    | networkError => simp

/-- C2: the aggregate fetch succeeds exactly when the initial GET on
`{base}/clients?offset=0&limit=100` succeeds — whatever the per-client
detail environment does, a detail failure never turns the whole
operation into a rejection, and a list-fetch failure (network error,
timeout, or non-2xx status) always does. -/
theorem fetchAllClientChannels_rejects_iff_list_fails (baseUrl : String)
    (envList : String → FetchResult ClientsResponse)
    (envDetail : String → FetchResult ClientChannelsResponse) :
    (fetchAllClientChannels baseUrl envList envDetail).1.isOk
      = (fetchWithTimeout (envList (clientsListUrl baseUrl))).isOk := by
  unfold fetchAllClientChannels
  cases h : fetchWithTimeout (envList (clientsListUrl baseUrl)) with
  | error e => simp [Except.isOk, Except.toBool]
  | ok resp =>
    by_cases hlen : resp.items.length = 0 <;>
      simp [hlen, Except.isOk, Except.toBool]

/-- C4: when the client list comes back empty, the aggregate fetch
returns the zero-valued aggregate at once and issues no per-client
detail request. -/
theorem fetchAllClientChannels_empty_items (baseUrl : String)
    (envList : String → FetchResult ClientsResponse)
    (envDetail : String → FetchResult ClientChannelsResponse)
    (resp : ClientsResponse)
    (hok : fetchWithTimeout (envList (clientsListUrl baseUrl)) = Except.ok resp)
    (hempty : resp.items = []) :
    fetchAllClientChannels baseUrl envList envDetail =
      (Except.ok { total_extended := 0
                   total_standard := 0
                   extended_channels := []
                   standard_channels := [] }, []) := by
  unfold fetchAllClientChannels
  rw [hok]
  simp [hempty, emptyAggregate]

/-- Witness for C4: a concrete empty client list yields the zero
aggregate and an empty request trace, even though every detail request
would fail if issued. -/
theorem fetchAllClientChannels_empty_items_witness :
    fetchAllClientChannels "B" demoEmptyListEnv demoDetailEnvDown =
      (Except.ok { total_extended := 0
                   total_standard := 0
                   extended_channels := []
                   standard_channels := []
                   : AggregatedClientChannels }, []) :=
  fetchAllClientChannels_empty_items "B" demoEmptyListEnv demoDetailEnvDown
    { items := [] } rfl rfl

end Sv2UI

namespace Sv2UI

/-- The aggregation loop, run from any accumulator, adds exactly the
non-null results' totals and appends exactly their channel lists, in
order. -/
theorem foldl_mergeStep_eq (rs : List (Option ClientChannelsResponse))
    (acc : AggregatedClientChannels) :
    rs.foldl mergeStep acc =
      { total_extended := acc.total_extended
          + (rs.reduceOption.map ClientChannelsResponse.total_extended).sum
        total_standard := acc.total_standard
          + (rs.reduceOption.map ClientChannelsResponse.total_standard).sum
        extended_channels := acc.extended_channels
          ++ (rs.reduceOption.map ClientChannelsResponse.extended_channels).flatten
        standard_channels := acc.standard_channels
          ++ (rs.reduceOption.map ClientChannelsResponse.standard_channels).flatten } := by
  induction rs generalizing acc with
  | nil => simp [List.reduceOption_nil]
  | cons r rs ih =>
    cases r with
    | none =>
      rw [List.foldl_cons]
      simpa [mergeStep, List.reduceOption_cons_of_none] using ih acc
    | some v =>
      rw [List.foldl_cons, ih]
      simp [mergeStep, List.reduceOption_cons_of_some, Nat.add_assoc,
        List.append_assoc]

/-- C3: when the client list fetch succeeds, the aggregate sums exactly
the totals of the detail fetches that succeeded and concatenates
exactly their channel lists, in item order — the clients whose detail
fetch failed contribute nothing. -/
theorem fetchAllClientChannels_partial_merge (baseUrl : String)
    (envList : String → FetchResult ClientsResponse)
    (envDetail : String → FetchResult ClientChannelsResponse)
    (resp : ClientsResponse)
    (hok : fetchWithTimeout (envList (clientsListUrl baseUrl)) = Except.ok resp) :
    (fetchAllClientChannels baseUrl envList envDetail).1 =
      Except.ok
        { total_extended := ((successfulDetails baseUrl resp.items envDetail).map
            ClientChannelsResponse.total_extended).sum
          total_standard := ((successfulDetails baseUrl resp.items envDetail).map
            ClientChannelsResponse.total_standard).sum
          extended_channels := ((successfulDetails baseUrl resp.items envDetail).map
            ClientChannelsResponse.extended_channels).flatten
          standard_channels := ((successfulDetails baseUrl resp.items envDetail).map
            ClientChannelsResponse.standard_channels).flatten } := by
  have key : fetchAllClientChannels baseUrl envList envDetail
      = (if resp.items.length = 0 then (Except.ok emptyAggregate, ([] : List String))
         else
          (Except.ok ((resp.items.map fun client =>
              detailOrNull (envDetail (clientChannelsUrl baseUrl client.client_id))).foldl
                mergeStep emptyAggregate),
           resp.items.map fun client => clientChannelsUrl baseUrl client.client_id)) := by
    unfold fetchAllClientChannels
    rw [hok]
  rw [key]
  by_cases hlen : resp.items.length = 0
  · have hnil : resp.items = [] := List.length_eq_zero.mp hlen
    simp [hlen, hnil, successfulDetails, emptyAggregate, List.reduceOption_nil]
  · rw [if_neg hlen, foldl_mergeStep_eq]
    simp [successfulDetails, emptyAggregate]

/-- Witness for C3: three clients of which client 2's detail fetch
fails — the aggregate carries exactly clients 1 and 3's totals
(1 + 3 = 4 extended, 1 + 1 = 2 standard) and exactly their channels. -/
theorem fetchAllClientChannels_partial_merge_witness :
    (fetchAllClientChannels "B" demoListEnv3 demoDetailEnv3).1 =
      Except.ok
        { total_extended := 4
          total_standard := 2
          extended_channels := [{ channel_id := 1 }, { channel_id := 3 }]
          standard_channels := [{ channel_id := 11 }, { channel_id := 13 }] } :=
  (fetchAllClientChannels_partial_merge "B" demoListEnv3 demoDetailEnv3
    demoClients3 rfl).trans (by decide)

end Sv2UI

namespace Sv2UI

/-- Appending through the reducer commutes with keeping the last
`MAX_HISTORY_POINTS` entries: feeding one more point into a buffer that
is the last-60 window of `l` yields the last-60 window of `l ++ [p]`. -/
theorem reducer_step_sliceLast (l : List HashrateDataPoint)
    (p : HashrateDataPoint) :
    hashrateHistoryReducer { history := sliceLast l MAX_HISTORY_POINTS }
        (HashrateHistoryAction.ADD_POINT p)
      = { history := sliceLast (l ++ [p]) MAX_HISTORY_POINTS } := by
  have hM : 0 < MAX_HISTORY_POINTS := by decide
  have hlen1 : ([p] : List HashrateDataPoint).length = 1 := rfl
  rcases Nat.lt_or_ge l.length MAX_HISTORY_POINTS with hB | hA
  · have h0 : l.length - MAX_HISTORY_POINTS = 0 := by omega
    have hs1 : sliceLast l MAX_HISTORY_POINTS = l := by simp [sliceLast, h0]
    have hs2 : sliceLast (l ++ [p]) MAX_HISTORY_POINTS = l ++ [p] := by
      have h0' : (l ++ [p]).length - MAX_HISTORY_POINTS = 0 := by
        rw [List.length_append, hlen1]; omega
      simp only [sliceLast, h0', List.drop_zero]
    have hcond : ¬ ((l ++ [p]).length > MAX_HISTORY_POINTS) := by
      rw [List.length_append, hlen1]; omega
    rw [hs2]
    simp only [hashrateHistoryReducer, hs1]
    rw [if_neg hcond]
  · have h60 : (sliceLast l MAX_HISTORY_POINTS).length = MAX_HISTORY_POINTS := by
      simp only [sliceLast, List.length_drop]
      omega
    have hcond : (sliceLast l MAX_HISTORY_POINTS ++ [p]).length
        > MAX_HISTORY_POINTS := by
      rw [List.length_append, h60, hlen1]; omega
    simp only [hashrateHistoryReducer]
    rw [if_pos hcond]
    apply congrArg HashrateHistoryState.mk
    have e1 : (sliceLast l MAX_HISTORY_POINTS ++ [p]).length
        - MAX_HISTORY_POINTS = 1 := by
      rw [List.length_append, h60, hlen1]; omega
    show (sliceLast l MAX_HISTORY_POINTS ++ [p]).drop
        ((sliceLast l MAX_HISTORY_POINTS ++ [p]).length - MAX_HISTORY_POINTS)
      = sliceLast (l ++ [p]) MAX_HISTORY_POINTS
    rw [e1, List.drop_append_of_le_length (le_trans (by omega) h60.ge)]
    show List.drop 1 (List.drop (l.length - MAX_HISTORY_POINTS) l) ++ [p] = _
    rw [List.drop_drop]
    show _ = (l ++ [p]).drop ((l ++ [p]).length - MAX_HISTORY_POINTS)
    rw [List.length_append, hlen1]
    rw [List.drop_append_of_le_length (by omega)]
    have e2 : l.length - MAX_HISTORY_POINTS + 1
        = l.length + 1 - MAX_HISTORY_POINTS := by omega
    rw [e2]

/-- Running any sequence of accepted points through the reducer from
the last-60 window of `l` lands on the last-60 window of `l ++ pts`. -/
theorem foldl_reducer_sliceLast (pts : List HashrateDataPoint) :
    ∀ l : List HashrateDataPoint,
    pts.foldl (fun s p => hashrateHistoryReducer s (.ADD_POINT p))
        { history := sliceLast l MAX_HISTORY_POINTS }
      = { history := sliceLast (l ++ pts) MAX_HISTORY_POINTS } := by
  induction pts with
  | nil => intro l; simp
  | cons p pts ih =>
    intro l
    rw [List.foldl_cons, reducer_step_sliceLast, ih (l ++ [p]),
      List.append_assoc, List.singleton_append]

/-- From an empty buffer, `N` accepted samples leave exactly the last
`MAX_HISTORY_POINTS` of them, in insertion order. -/
theorem recordAll_eq_sliceLast (pts : List HashrateDataPoint) :
    recordAll pts = { history := sliceLast pts MAX_HISTORY_POINTS } := by
  have h := foldl_reducer_sliceLast pts []
  simpa [recordAll, sliceLast] using h

end Sv2UI

namespace Sv2UI

/-- C6: after any number `N ≥ 0` of accepted samples the buffer is the
last-`MAX_HISTORY_POINTS` window of the accepted sequence — at most
`min N 60` entries, a suffix of the insertion order — and loading a
persisted snapshot keeps exactly the entries younger than `MAX_AGE_MS`
relative to the load time, in order: a 2-hour-old sample is dropped, a
1-minute-old one survives. -/
theorem history_retention_invariant (pts data : List HashrateDataPoint)
    (now : Int) (hlen : data.length ≤ MAX_HISTORY_POINTS) :
    (recordAll pts).history = sliceLast pts MAX_HISTORY_POINTS
    ∧ (recordAll pts).history.length = min pts.length MAX_HISTORY_POINTS
    ∧ (recordAll pts).history.IsSuffix pts
    ∧ (∀ point ∈ (loadInitialState now (.valid data)).history,
        now - point.timestamp < MAX_AGE_MS)
    ∧ (loadInitialState now (.valid data)).history
        = data.filter fun point => now - point.timestamp < MAX_AGE_MS := by
  have hrec := recordAll_eq_sliceLast pts
  have hload : (loadInitialState now (.valid data)).history
      = data.filter fun point => now - point.timestamp < MAX_AGE_MS := by
    have hf : (data.filter fun point =>
        decide (now - point.timestamp < MAX_AGE_MS)).length
        ≤ MAX_HISTORY_POINTS :=
      le_trans (List.length_filter_le _ _) hlen
    simp only [loadInitialState, sliceLast]
    rw [Nat.sub_eq_zero_of_le hf, List.drop_zero]
  refine ⟨by rw [hrec], ?_, ?_, ?_, hload⟩
  · rw [hrec]
    simp only [sliceLast, List.length_drop]
    omega
  · rw [hrec]
    exact List.drop_suffix _ _
  · intro point hp
    rw [hload] at hp
    exact of_decide_eq_true (List.mem_filter.mp hp).2

/-- A sample recorded two hours before the reload. -/
def demoOldPoint : HashrateDataPoint :=
  { time := "old", timestamp := 2800000, hashrate := 1 }

/-- A sample recorded one minute before the reload. -/
def demoRecentPoint : HashrateDataPoint :=
  { time := "recent", timestamp := 9940000, hashrate := 2 }

/-- Witness for C6 at load time 10000000 ms: of a persisted pair made
of a 2-hour-old and a 1-minute-old sample, only the 1-minute-old one
survives the reload. -/
theorem history_retention_invariant_witness :
    [demoOldPoint, demoRecentPoint].length ≤ MAX_HISTORY_POINTS
    ∧ (loadInitialState 10000000
        (.valid [demoOldPoint, demoRecentPoint])).history
        = [demoRecentPoint] :=
  ⟨by decide,
   ((history_retention_invariant [] [demoOldPoint, demoRecentPoint] 10000000
      (by decide)).2.2.2.2).trans (by decide)⟩

/-- One accepted `ADD_POINT` changes the buffer length to
`min (previous + 1) MAX_HISTORY_POINTS`. -/
theorem reducer_addPoint_length (h : List HashrateDataPoint)
    (p : HashrateDataPoint) :
    ((hashrateHistoryReducer { history := h }
        (HashrateHistoryAction.ADD_POINT p)).history).length
      = min (h.length + 1) MAX_HISTORY_POINTS := by
  simp only [hashrateHistoryReducer]
  split
  next hgt =>
    simp only [sliceLast, List.length_drop, List.length_append,
      List.length_cons, List.length_nil] at hgt ⊢
    omega
  next hle =>
    simp only [List.length_append, List.length_cons, List.length_nil] at hle ⊢
    omega

/-- One accepted `ADD_POINT` puts the new payload at the back of the
buffer. -/
theorem reducer_addPoint_getLast (h : List HashrateDataPoint)
    (p : HashrateDataPoint) :
    ((hashrateHistoryReducer { history := h }
        (HashrateHistoryAction.ADD_POINT p)).history).getLast? = some p := by
  have hM : 0 < MAX_HISTORY_POINTS := by decide
  simp only [hashrateHistoryReducer]
  split
  next hgt =>
    show ((h ++ [p]).drop ((h ++ [p]).length - MAX_HISTORY_POINTS)).getLast?
      = some p
    rw [List.length_append] at hgt ⊢
    simp only [List.length_cons, List.length_nil] at hgt ⊢
    rw [List.drop_append_of_le_length (by omega)]
    exact List.getLast?_concat _
  next hle =>
    exact List.getLast?_concat _

/-- An accepted `ADD_POINT` below capacity is a plain append. -/
theorem reducer_addPoint_append (h : List HashrateDataPoint)
    (p : HashrateDataPoint) (hlt : h.length < MAX_HISTORY_POINTS) :
    (hashrateHistoryReducer { history := h }
        (HashrateHistoryAction.ADD_POINT p)).history = h ++ [p] := by
  simp only [hashrateHistoryReducer]
  rw [if_neg ?hcond]
  case hcond =>
    rw [List.length_append]
    simp only [List.length_cons, List.length_nil]
    omega

end Sv2UI


namespace Sv2UI

/-- A call inside the throttle window returns before dispatching or
touching the ref: the provider state is unchanged. -/
theorem addPoint_noop (fmt : Int → String) (now : Int) (v : Rat) (w : Bool)
    (st : ProviderState)
    (h : now - st.lastSampleTime < SAMPLE_INTERVAL_MS) :
    addPoint fmt now v w st = st := by
  unfold addPoint
  rw [if_pos h]

/-- An accepted call moves the `lastSampleTime` ref to the call
time. -/
theorem addPoint_accepted_lastSampleTime (fmt : Int → String) (now : Int)
    (v : Rat) (w : Bool) (st : ProviderState)
    (h : ¬ (now - st.lastSampleTime < SAMPLE_INTERVAL_MS)) :
    (addPoint fmt now v w st).lastSampleTime = now := by
  unfold addPoint
  rw [if_neg h]

/-- An accepted call dispatches exactly one `ADD_POINT` carrying the
formatted time, the call timestamp and the value. -/
theorem addPoint_accepted_history (fmt : Int → String) (now : Int)
    (v : Rat) (w : Bool) (st : ProviderState)
    (h : ¬ (now - st.lastSampleTime < SAMPLE_INTERVAL_MS)) :
    (addPoint fmt now v w st).history
      = (hashrateHistoryReducer { history := st.history }
          (HashrateHistoryAction.ADD_POINT
            { time := fmt now, timestamp := now, hashrate := v })).history := by
  unfold addPoint
  rw [if_neg h]

/-- C5: `addPoint` is a no-op when less than `SAMPLE_INTERVAL_MS` has
elapsed since the last accepted sample, and two calls of which the
first is accepted and the second lands within `SAMPLE_INTERVAL_MS` of
it store exactly one sample — the second call changes nothing and the
buffer grew by exactly one entry (capped at capacity). -/
theorem addPoint_throttles (fmt : Int → String) (st : ProviderState)
    (tR t1 t2 : Int) (vR v1 v2 : Rat) (wR w1 w2 : Bool)
    (hrej : tR - st.lastSampleTime < SAMPLE_INTERVAL_MS)
    (hacc : SAMPLE_INTERVAL_MS ≤ t1 - st.lastSampleTime)
    (hwin : t2 - t1 < SAMPLE_INTERVAL_MS) :
    addPoint fmt tR vR wR st = st
    ∧ addPoint fmt t2 v2 w2 (addPoint fmt t1 v1 w1 st)
        = addPoint fmt t1 v1 w1 st
    ∧ (addPoint fmt t1 v1 w1 st).history.length
        = min (st.history.length + 1) MAX_HISTORY_POINTS := by
  have hlast : (addPoint fmt t1 v1 w1 st).lastSampleTime = t1 :=
    addPoint_accepted_lastSampleTime fmt t1 v1 w1 st (by omega)
  refine ⟨addPoint_noop fmt tR vR wR st hrej, ?_, ?_⟩
  · exact addPoint_noop fmt t2 v2 w2 _ (by rw [hlast]; omega)
  · rw [addPoint_accepted_history fmt t1 v1 w1 st (by omega)]
    exact reducer_addPoint_length st.history _

/-- C9: from a provider whose `lastSampleTime` ref still holds its
initial value 0, a call at any epoch time of at least
`SAMPLE_INTERVAL_MS` is accepted: it moves `lastSampleTime` to the call
time and appends exactly one sample carrying the call's timestamp and
value (a plain append below capacity, a capped append at it). -/
theorem addPoint_first_call_accepted (fmt : Int → String) (now : Int)
    (v : Rat) (writeOk : Bool) (st : ProviderState)
    (hfresh : st.lastSampleTime = 0) (hnow : SAMPLE_INTERVAL_MS ≤ now) :
    (addPoint fmt now v writeOk st).lastSampleTime = now
    ∧ (addPoint fmt now v writeOk st).history.getLast?
        = some { time := fmt now, timestamp := now, hashrate := v }
    ∧ (addPoint fmt now v writeOk st).history.length
        = min (st.history.length + 1) MAX_HISTORY_POINTS
    ∧ (st.history.length < MAX_HISTORY_POINTS →
        (addPoint fmt now v writeOk st).history
          = st.history ++ [{ time := fmt now, timestamp := now, hashrate := v }]) := by
  have hcond : ¬ (now - st.lastSampleTime < SAMPLE_INTERVAL_MS) := by
    rw [hfresh]
    omega
  have hhist := addPoint_accepted_history fmt now v writeOk st hcond
  refine ⟨addPoint_accepted_lastSampleTime fmt now v writeOk st hcond,
    ?_, ?_, fun hlt => ?_⟩
  · rw [hhist]
    exact reducer_addPoint_getLast st.history _
  · rw [hhist]
    exact reducer_addPoint_length st.history _
  · rw [hhist]
    exact reducer_addPoint_append st.history _ hlt

/-- C10: a call that arrives inside the throttle window changes nothing
at all — buffer, persisted snapshot and `lastSampleTime` included — so
the window stays measured from the last accepted sample, and a later
call at least `SAMPLE_INTERVAL_MS` after that sample is accepted
whether or not rejected calls intervened. -/
theorem addPoint_rejected_is_frame (fmt : Int → String) (st : ProviderState)
    (now later : Int) (v v' : Rat) (w w' : Bool)
    (hrej : now - st.lastSampleTime < SAMPLE_INTERVAL_MS)
    (hlater : SAMPLE_INTERVAL_MS ≤ later - st.lastSampleTime) :
    addPoint fmt now v w st = st
    ∧ addPoint fmt later v' w' (addPoint fmt now v w st)
        = addPoint fmt later v' w' st
    ∧ (addPoint fmt later v' w' (addPoint fmt now v w st)).lastSampleTime
        = later := by
  have hnoop : addPoint fmt now v w st = st :=
    addPoint_noop fmt now v w st hrej
  refine ⟨hnoop, by rw [hnoop], ?_⟩
  rw [hnoop]
  exact addPoint_accepted_lastSampleTime fmt later v' w' st (by omega)

/-- A fixed display-time formatter standing in for
`toLocaleTimeString`. -/
def demoFmt : Int → String := fun _ => "12:00"

/-- A freshly mounted provider with nothing persisted. -/
def demoProviderState : ProviderState :=
  { history := [], lastSampleTime := 0, storage := .absent }

/-- Witness for C5: on a fresh provider, a call at 1000 ms is rejected,
a call at 6000 ms is accepted, and a follow-up at 9000 ms (3000 ms
later) changes nothing, leaving exactly one stored sample. -/
theorem addPoint_throttles_witness :
    addPoint demoFmt 1000 3 true demoProviderState = demoProviderState
    ∧ addPoint demoFmt 9000 5 true
        (addPoint demoFmt 6000 4 true demoProviderState)
        = addPoint demoFmt 6000 4 true demoProviderState
    ∧ (addPoint demoFmt 6000 4 true demoProviderState).history.length
        = min (demoProviderState.history.length + 1) MAX_HISTORY_POINTS :=
  addPoint_throttles demoFmt demoProviderState 1000 6000 9000 3 4 5
    true true true (by decide) (by decide) (by decide)

/-- Witness for C9: the first call on a fresh provider, at epoch time
exactly `SAMPLE_INTERVAL_MS`, is accepted and stores the one sample
with that timestamp and value. -/
theorem addPoint_first_call_accepted_witness :
    (addPoint demoFmt 5000 7 true demoProviderState).lastSampleTime = 5000
    ∧ (addPoint demoFmt 5000 7 true demoProviderState).history.getLast?
        = some { time := demoFmt 5000, timestamp := 5000, hashrate := 7 }
    ∧ (addPoint demoFmt 5000 7 true demoProviderState).history.length
        = min (demoProviderState.history.length + 1) MAX_HISTORY_POINTS
    ∧ (demoProviderState.history.length < MAX_HISTORY_POINTS →
        (addPoint demoFmt 5000 7 true demoProviderState).history
          = demoProviderState.history
              ++ [{ time := demoFmt 5000, timestamp := 5000, hashrate := 7 }]) :=
  addPoint_first_call_accepted demoFmt 5000 7 true demoProviderState rfl
    (by decide)

/-- Witness for C10: a rejected call at 1000 ms leaves the fresh
provider untouched and does not delay the acceptance of a call at
5000 ms. -/
theorem addPoint_rejected_is_frame_witness :
    addPoint demoFmt 1000 8 true demoProviderState = demoProviderState
    ∧ addPoint demoFmt 5000 9 false
        (addPoint demoFmt 1000 8 true demoProviderState)
        = addPoint demoFmt 5000 9 false demoProviderState
    ∧ (addPoint demoFmt 5000 9 false
        (addPoint demoFmt 1000 8 true demoProviderState)).lastSampleTime
        = 5000 :=
  addPoint_rejected_is_frame demoFmt demoProviderState 1000 5000 8 9
    true false (by decide) (by decide)

end Sv2UI
